import Mathlib

/-!
Verification of `dpsutil/media/image.py` (DPS_Util).

The module is a thin adapter over two backends (a vision library and an
accelerated JPEG codec).  Pixel buffers are numpy arrays of shape
(height, width, channel); the channel axis carries no logic in the code
under study, so a pixel is modelled as a single abstract value `Px` and a
buffer as a rectangular list of rows.  Backend calls (resampling,
warping, rasterization) are modelled by their documented interface
behaviour: the output canvas shape is exact, the interpolated pixel
content is outside the embedding.  Python machine behaviour is modelled
explicitly: truncating `int()` conversion is `Int.tdiv` / `fracTrunc`,
banker's rounding is `halfRoundEven`, dynamic-typing failures are
`PyErr` values in `Except`.
-/

/-- A pixel (the three 8-bit channels folded into one abstract value). -/
abbrev Px := Int × Int × Int

/-- A decoded pixel buffer: a list of rows of pixels, row-major, as a
numpy array of shape (height, width, channels) with the channel axis
folded into `Px`. -/
abbrev Image := List (List Px)

/-- `img.shape[0]`. -/
def imgHeight (img : Image) : Nat := img.length

/-- `img.shape[1]` (numpy arrays are rectangular, so the first row's
length is the width). -/
def imgWidth (img : Image) : Nat := (img.headD []).length

/-- Rectangularity invariant of a numpy array: every row has the
declared width. -/
def imgRect (img : Image) : Prop := ∀ r ∈ img, r.length = imgWidth img

/-- Errors surfaced by the Python code under study. -/
inductive PyErr where
  | typeError
  | valueError
  | assertionError
  | fileExists
  | fileNotFound
  | zeroDivision
  | cvError
deriving DecidableEq, Repr

/-- Python slice endpoint resolution for a sequence of length `n`:
a negative index counts from the end, then the result is clamped
into `[0, n]`. -/
def sliceIdx (n : Nat) (i : Int) : Nat :=
  if i < 0 then (i + n).toNat else min i.toNat n

/-- Python slicing `l[i:j]` (step 1). -/
def listSlice (l : List α) (i j : Int) : List α :=
  (l.drop (sliceIdx l.length i)).take (sliceIdx l.length j - sliceIdx l.length i)

/-- numpy basic slicing on the two leading axes: `img[y0:y1, x0:x1]`. -/
def npSlice (img : Image) (y0 y1 x0 x1 : Int) : Image :=
  (listSlice img y0 y1).map (fun row => listSlice row x0 x1)

/-- `numpy.any(box)` for a 4-tuple: true iff some component is nonzero. -/
def boxAny (box : Int × Int × Int × Int) : Bool :=
  box.1 != 0 || box.2.1 != 0 || box.2.2.1 != 0 || box.2.2.2 != 0

/-- `crop(img, box)` from `image.py` lines 177-195.  `box = (x, y, w, h)`.
An all-zero box returns the input unchanged.  Otherwise `x`, `y` are
clamped to non-negative and the end bounds are
`w_end = x + min(w, max_width)` and `h_end = y + min(h, max_width)`:
the height bound is clamped against the width limit (the source's
replicated defect).  `int(round(.))` is the identity on the integer
boxes modelled here. -/
def crop (img : Image) (box : Int × Int × Int × Int) : Image :=
  if boxAny box = false then img
  else
    let maxWidth : Int := imgWidth img
    let x := max box.1 0
    let y := max box.2.1 0
    let w := x + min box.2.2.1 maxWidth
    let h := y + min box.2.2.2 maxWidth
    npSlice img y h x w

/-- `crop_margin(img, margin_size, box)` from `image.py` lines 198-204. -/
def crop_margin (img : Image) (marginSize : Int) (box : Int × Int × Int × Int) : Image :=
  crop img (box.1 - marginSize, box.2.1 - marginSize, box.2.2.1 + marginSize, box.2.2.2 + marginSize)

/-- Python `int(round(n / 2.))` for an integer `n`: `round` rounds a
half to the nearest even integer (banker's rounding). -/
def halfRoundEven (n : Int) : Int :=
  if n % 2 = 0 then n / 2
  else if (n / 2) % 2 = 0 then n / 2 else n / 2 + 1

/-- `crop_center(img, crop_size)` from `image.py` lines 213-227.
`crop_size = (width_crop, height_crop)`; raises `ValueError` when either
requested dimension is ≥ the corresponding source dimension, otherwise
delegates to `crop` with a centred box. -/
def crop_center (img : Image) (cropSize : Int × Int) : Except PyErr Image :=
  let height : Int := imgHeight img
  let width : Int := imgWidth img
  if cropSize.1 ≥ width ∨ cropSize.2 ≥ height then .error .valueError
  else
    let x := halfRoundEven (width - cropSize.1)
    let y := halfRoundEven (height - cropSize.2)
    .ok (crop img (x, y, cropSize.1, cropSize.2))

-- A small concrete pixel and buffers used by witnesses and counterexamples.

/-- A concrete pixel. -/
def px0 : Px := (0, 0, 0)

/-- A concrete 4-row, 3-column buffer. -/
def img43 : Image :=
  [[(1,1,1), (2,2,2), (3,3,3)],
   [(4,4,4), (5,5,5), (6,6,6)],
   [(7,7,7), (8,8,8), (9,9,9)],
   [(10,10,10), (11,11,11), (12,12,12)]]

/-- A concrete 5-row, 3-column buffer. -/
def img53 : Image := List.replicate 5 (List.replicate 3 px0)

/-- Claim C8: `crop(buf, (0,0,0,0))` returns `buf` unchanged for every
buffer: the all-zero box is a no-op sentinel. -/
theorem crop_allzero_id (img : Image) : crop img (0, 0, 0, 0) = img := rfl

/-- Claim C1: for every buffer and every non-all-zero box `(x, y, w, h)`,
`crop` clamps `x` and `y` to non-negative and returns
`img[y : y + min(h, width), x : x + min(w, width)]` — both the width and
the height bound are clamped against the source *width*, the replicated
defect, exactly as stated. -/
theorem crop_defect (img : Image) (box : Int × Int × Int × Int)
    (hbox : boxAny box = true) :
    crop img box =
      npSlice img (max box.2.1 0) (max box.2.1 0 + min box.2.2.2 (imgWidth img))
        (max box.1 0) (max box.1 0 + min box.2.2.1 (imgWidth img)) := by
  simp [crop, hbox]

/-- Witness for C1 at the concrete buffer `img43` and box `(1, 1, 2, 5)`. -/
theorem crop_defect_witness :
    boxAny (1, 1, 2, 5) = true ∧
      crop img43 (1, 1, 2, 5) =
        npSlice img43 (max 1 0) (max 1 0 + min 5 (imgWidth img43))
          (max 1 0) (max 1 0 + min 2 (imgWidth img43)) :=
  ⟨by decide, crop_defect img43 (1, 1, 2, 5) (by decide)⟩

/-- A backend output canvas for a target size `dsize = (cols, rows)`:
width `dsize.1`, height `dsize.2`.  The resampled pixel content is
floating-point interpolation inside the backend and outside this
embedding; the canvas shape is exact. -/
def zeroCanvas (dsize : Int × Int) : Image :=
  List.replicate dsize.2.toNat (List.replicate dsize.1.toNat px0)

/-- The 2×3 affine matrix returned by `cv2.getRotationMatrix2D`,
abstracted by its defining parameters. -/
structure RotMat where
  center : Int × Int
  angle : Rat
  scale : Rat
deriving DecidableEq

/-- `cv2.getRotationMatrix2D(center, angle, scale)`. -/
def getRotationMatrix2D (center : Int × Int) (angle : Rat) (scale : Rat) : RotMat :=
  ⟨center, angle, scale⟩

/-- `cv2.warpAffine(src, M, dsize)`: per the backend interface,
`dsize = (cols, rows)`, so the output canvas has width `dsize.1` and
height `dsize.2`. -/
def warpAffine (src : Image) (M : RotMat) (dsize : Int × Int) : Image :=
  zeroCanvas dsize

/-- `rotate_crop(img, angle, center)` from `image.py` lines 325-340.
A supplied center outside the buffer bounds fails the assertion;
otherwise the source calls `cv2.warpAffine(img, M, (h, w))` — note the
tuple order passed as `dsize`. -/
def rotate_crop (img : Image) (angle : Rat) (center : Option (Int × Int)) : Except PyErr Image :=
  let h : Int := imgHeight img
  let w : Int := imgWidth img
  match center with
  | some c =>
      if 0 ≤ c.1 ∧ c.1 ≤ w ∧ 0 ≤ c.2 ∧ c.2 ≤ h then
        .ok (warpAffine img (getRotationMatrix2D c (-angle) 1) (h, w))
      else .error .assertionError
  | none => .ok (warpAffine img (getRotationMatrix2D (w / 2, h / 2) (-angle) 1) (h, w))

/-- A concrete 2-row, 3-column buffer. -/
def img23 : Image := [[(1,1,1), (2,2,2), (3,3,3)], [(4,4,4), (5,5,5), (6,6,6)]]

/-- Claim C2 (code bug): `rotate_crop` passes `(h, w)` as the backend's
`dsize`, which the backend reads as `(cols, rows)`; on a 2×3 buffer the
output canvas is therefore 3×2, not the original 2×3 the function's own
docstring ("crop part out of size") and its sibling calls (`zoom`,
`rotate_bound` pass width-first) intend. -/
theorem rotate_crop_swapped_canvas :
    (rotate_crop img23 90 Option.none).map (fun i => (imgHeight i, imgWidth i)) =
      .ok (3, 2) := rfl

/-- Modelled from the spec: the encode-format marker `ENCODE_JPEG` lives
in `dpsutil.media.constant`, which is not under `src/`.  Per spec
§4.1/§6 the two markers select JPEG vs PNG and `ENCODE_PNG` is the
extension string handed to the vision backend's encoder; their values
only matter through equality tests, modelled as two distinct extension
strings. -/
def ENCODE_JPEG : String := ".jpg"

/-- Modelled from the spec: see `ENCODE_JPEG`. -/
def ENCODE_PNG : String := ".png"

/-- An encoded byte buffer, abstracted by the backend call that produced
it (the entropy coding itself is outside the embedding). -/
inductive EncodeResult where
  | jpeg (img : Image) (quality : Int) (pixelFormat : Int)
  | png (img : Image) (compression : Int)
deriving DecidableEq

/-- `imencode(img, encode_type, quality, pixel_format)` from `image.py`
lines 34-71: the JPEG marker dispatches to the accelerated codec with
`quality` and `pixel_format` as given; anything else goes to the vision
backend's PNG encoder with `quality = max(0, min(int(quality / 10) - 1, 9))`
(`int()` truncates toward zero). -/
def imencode (img : Image) (encodeType : String) (quality : Int) (pixelFormat : Int) :
    EncodeResult :=
  if encodeType = ENCODE_JPEG then .jpeg img quality pixelFormat
  else .png img (max 0 (min (Int.tdiv quality 10 - 1) 9))

/-- `None`, an `int`, or a 2-tuple: the values `resize`'s optional
`width`/`height` parameters receive in this codebase (`crop_scale`
passes its `output_size` tuple positionally as `width`). -/
inductive PyArg where
  | none
  | int (n : Int)
  | tup (a b : Int)
deriving DecidableEq

/-- Python truthiness of such a value: `None` and `0` are falsy, any
nonzero int and any 2-tuple are truthy. -/
def PyArg.truthy : PyArg → Bool
  | .none => false
  | .int n => n != 0
  | .tup _ _ => true

/-- Python `x > 0`: comparing `None` or a tuple with an int raises
`TypeError`. -/
def PyArg.gtZero : PyArg → Except PyErr Bool
  | .int n => .ok (decide (0 < n))
  | _ => .error .typeError

/-- Python `x <= 0`: comparing `None` or a tuple with an int raises
`TypeError`. -/
def PyArg.leZero : PyArg → Except PyErr Bool
  | .int n => .ok (decide (n ≤ 0))
  | _ => .error .typeError

/-- A Python float value arising as a quotient of integers, modelled as
an exact (numerator, denominator) fraction; every construction site
keeps the denominator positive.  (Binary floating-point rounding is
outside the embedding; the quotients here are exact.) -/
abbrev Frac := Int × Int

/-- Python `x / n * m` (the source's `height / old_h * old_w`): `None`
or a tuple as `x` raises `TypeError`; dividing by zero raises
`ZeroDivisionError`; otherwise the value is the exact fraction
`(x * m) / n`. -/
def PyArg.deriveDim (x : PyArg) (n m : Int) : Except PyErr Frac :=
  match x with
  | .int v =>
      if n = 0 then .error .zeroDivision
      else .ok (v * m, n)
  | _ => .error .typeError

/-- Python `int(x)` on a float: truncation toward zero, which on an
exact fraction with positive denominator is truncating division. -/
def fracTrunc (q : Frac) : Int := Int.tdiv q.1 q.2

/-- `cv2.resize(src, dsize, interpolation)`: `dsize = (cols, rows)`,
i.e. (width, height); the backend rejects an empty target size (this
module never passes `fx`/`fy` scale factors); resampled content is
outside the embedding, the output canvas shape is exact. -/
def cv2Resize (src : Image) (dsize : Int × Int) (interp : Option Int) :
    Except PyErr Image :=
  if 0 < dsize.1 ∧ 0 < dsize.2 then .ok (zeroCanvas dsize) else .error .cvError

/-- `resize(img, width, height, interpolation)` from `image.py` lines
230-246, transcribed with Python's short-circuit evaluation, truthiness
and dynamically-typed comparisons made explicit:

  if (width is None and height is None) or
     not ((not width or width > 0) or (not height or height > 0)): return img
  old_h, old_w, _ = img.shape
  if not width or width <= 0:  width = height / old_h * old_w
  if not height or height <= 0: height = width / old_w * old_h
  return cv2.resize(img, (int(width), int(height)), interpolation)
-/
def resize (img : Image) (width height : PyArg) (interp : Option Int) :
    Except PyErr Image :=
  if width = PyArg.none ∧ height = PyArg.none then .ok img
  else
    match (if width.truthy = false then .ok true else width.gtZero : Except PyErr Bool) with
    | .error e => .error e
    | .ok wGiven =>
      match (if wGiven then .ok true
             else if height.truthy = false then .ok true
             else height.gtZero : Except PyErr Bool) with
      | .error e => .error e
      | .ok anyGiven =>
        if anyGiven = false then .ok img
        else
          let oldH : Int := imgHeight img
          let oldW : Int := imgWidth img
          match (if width.truthy = false then .ok true else width.leZero :
                 Except PyErr Bool) with
          | .error e => .error e
          | .ok wMissing =>
            match (if wMissing then height.deriveDim oldH oldW
                   else match width with
                        | .int v => .ok ((v, 1) : Frac)
                        | _ => .error .typeError : Except PyErr Frac) with
            | .error e => .error e
            | .ok wq =>
              match (if height.truthy = false then .ok true else height.leZero :
                     Except PyErr Bool) with
              | .error e => .error e
              | .ok hMissing =>
                match (if hMissing then
                         (if oldW = 0 then .error .zeroDivision
                          else .ok ((wq.1 * oldH, wq.2 * oldW) : Frac))
                       else match height with
                            | .int v => .ok ((v, 1) : Frac)
                            | _ => .error .typeError : Except PyErr Frac) with
                | .error e => .error e
                | .ok hq => cv2Resize img (fracTrunc wq, fracTrunc hq) interp

/-- `crop_scale(img, box, output_size)` from `image.py` lines 294-303:
an all-zero box is replaced by the full extent `(0, 0, w, h)`, the box
is cropped, and if `output_size` is truthy it is passed *positionally*
to `resize` — i.e. as `resize`'s `width` parameter. -/
def crop_scale (img : Image) (box : Int × Int × Int × Int)
    (outputSize : Option (Int × Int)) : Except PyErr Image :=
  let box := if boxAny box = false then
               ((0 : Int), (0 : Int), (imgWidth img : Int), (imgHeight img : Int))
             else box
  let cropped := crop img box
  match outputSize with
  | some sz => resize cropped (.tup sz.1 sz.2) .none Option.none
  | Option.none => .ok cropped

/-- A concrete 2-row, 2-column buffer. -/
def img22 : Image := [[(1,1,1), (2,2,2)], [(3,3,3), (4,4,4)]]

/-- Claim C3 (code bug): `crop_scale` passes `output_size` positionally
into `resize`, where it lands in the `width` parameter; `resize` then
evaluates `width > 0` on a tuple, which raises `TypeError`.  Evaluated
here at a 2×2 buffer, the all-zero (full-extent) box and
`output_size = (2, 2)`: the call errors instead of returning a 2×2
resized buffer. -/
theorem crop_scale_output_size_type_error :
    crop_scale img22 (0, 0, 0, 0) (some (2, 2)) = .error .typeError := rfl

/-- Counterexample to claim C4 as stated: a zero `width` with `height`
not given is *not* treated as "width not given" (which would return the
input unchanged); the code falls through to `width = height / old_h * old_w`
with `height = None` and raises `TypeError`. -/
theorem resize_zero_width_type_error :
    resize img22 (.int 0) .none Option.none = .error .typeError ∧
      resize img22 (.int 0) .none Option.none ≠ .ok img22 := by
  have h1 : resize img22 (.int 0) .none Option.none = .error .typeError := rfl
  exact ⟨h1, by rw [h1]; exact fun h => Except.noConfusion h⟩

/-- Truncating division of a nonpositive numerator by a nonnegative
denominator is nonpositive. -/
theorem tdiv_nonpos_of_nonpos {a b : Int} (ha : a ≤ 0) (hb : 0 ≤ b) :
    Int.tdiv a b ≤ 0 := by
  have h2 : 0 ≤ Int.tdiv (-a) b := Int.tdiv_nonneg (by omega) hb
  have h3 : Int.tdiv (-a) b = -(Int.tdiv a b) := Int.neg_tdiv a b
  omega

/-- Claim C4 amended: with neither dimension given (both `None`) the
input is returned unchanged; with both given positive, the buffer is
resized to exactly those dimensions; with one positive dimension given,
the other — whether `None`, zero or negative — is derived to preserve
the aspect ratio as `int(given * other_src / src)`; with both given and
both negative, the input is returned unchanged.  But a zero-or-negative
`width` with `height` not given raises `TypeError` (not "treated as not
given"), and a zero-or-negative `height` with `width` not given, or a
zero dimension with the other nonpositive, reaches the backend with an
empty target size and fails there. -/
theorem resize_amended (img : Image) (interp : Option Int) (w h : Int)
    (hH : 0 < imgHeight img) (hW : 0 < imgWidth img) :
    (resize img .none .none interp = .ok img)
    ∧ (0 < w → 0 < h →
        resize img (.int w) (.int h) interp = .ok (zeroCanvas (w, h)))
    ∧ (0 < w → resize img (.int w) .none interp
        = cv2Resize img (w, Int.tdiv (w * (imgHeight img : Int)) (imgWidth img : Int)) interp)
    ∧ (0 < h → resize img .none (.int h) interp
        = cv2Resize img (Int.tdiv (h * (imgWidth img : Int)) (imgHeight img : Int), h) interp)
    ∧ (0 < w → h ≤ 0 → resize img (.int w) (.int h) interp
        = cv2Resize img (w, Int.tdiv (w * (imgHeight img : Int)) (imgWidth img : Int)) interp)
    ∧ (w ≤ 0 → 0 < h → resize img (.int w) (.int h) interp
        = cv2Resize img (Int.tdiv (h * (imgWidth img : Int)) (imgHeight img : Int), h) interp)
    ∧ (w < 0 → h < 0 → resize img (.int w) (.int h) interp = .ok img)
    ∧ (w ≤ 0 → resize img (.int w) .none interp = .error .typeError)
    ∧ (h ≤ 0 → resize img .none (.int h) interp = .error .cvError)
    ∧ (w ≤ 0 → h ≤ 0 → ¬(w < 0 ∧ h < 0) →
        resize img (.int w) (.int h) interp = .error .cvError) := by
  have hHne : (imgHeight img : Int) ≠ 0 := by omega
  have hWne : (imgWidth img : Int) ≠ 0 := by omega
  refine ⟨?_, ?_, ?_, ?_, ?_, ?_, ?_, ?_, ?_, ?_⟩
  · simp [resize]
  · intro hw hh
    have b1 : (w != 0) = true := by simp [bne_iff_ne]; omega
    have b2 : (h != 0) = true := by simp [bne_iff_ne]; omega
    simp [resize, PyArg.truthy, PyArg.gtZero, PyArg.leZero, b1, b2,
      decide_eq_true hw, decide_eq_true hh,
      decide_eq_false (show ¬ w ≤ 0 by omega), decide_eq_false (show ¬ h ≤ 0 by omega),
      fracTrunc, Int.tdiv_one, cv2Resize, hw, hh]
  · intro hw
    have b1 : (w != 0) = true := by simp [bne_iff_ne]; omega
    simp [resize, PyArg.truthy, PyArg.gtZero, PyArg.leZero, b1,
      decide_eq_true hw, decide_eq_false (show ¬ w ≤ 0 by omega),
      fracTrunc, Int.tdiv_one, hWne, mul_comm]
  · intro hh
    have b2 : (h != 0) = true := by simp [bne_iff_ne]; omega
    simp [resize, PyArg.truthy, PyArg.gtZero, PyArg.leZero, PyArg.deriveDim, b2,
      decide_eq_true hh, decide_eq_false (show ¬ h ≤ 0 by omega),
      fracTrunc, Int.tdiv_one, hHne]
  · intro hw hh
    have b1 : (w != 0) = true := by simp [bne_iff_ne]; omega
    simp [resize, PyArg.truthy, PyArg.gtZero, PyArg.leZero, b1,
      decide_eq_true hw, decide_eq_false (show ¬ w ≤ 0 by omega),
      decide_eq_true hh, fracTrunc, Int.tdiv_one, hWne, mul_comm]
  · intro hw hh
    have b2 : (h != 0) = true := by simp [bne_iff_ne]; omega
    rcases eq_or_lt_of_le hw with rfl | hw'
    · simp [resize, PyArg.truthy, PyArg.gtZero, PyArg.leZero, PyArg.deriveDim, b2,
        decide_eq_true hh, decide_eq_false (show ¬ h ≤ 0 by omega),
        fracTrunc, Int.tdiv_one, hHne]
    · have b1 : (w != 0) = true := by simp [bne_iff_ne]; omega
      simp [resize, PyArg.truthy, PyArg.gtZero, PyArg.leZero, PyArg.deriveDim, b1, b2,
        decide_eq_true hh, decide_eq_false (show ¬ h ≤ 0 by omega),
        decide_eq_false (show ¬ 0 < w by omega), decide_eq_true hw,
        fracTrunc, Int.tdiv_one, hHne]
  · intro hw hh
    have b1 : (w != 0) = true := by simp [bne_iff_ne]; omega
    have b2 : (h != 0) = true := by simp [bne_iff_ne]; omega
    simp [resize, PyArg.truthy, PyArg.gtZero, PyArg.leZero, b1, b2,
      decide_eq_false (show ¬ 0 < w by omega), decide_eq_false (show ¬ 0 < h by omega)]
  · intro hw
    rcases eq_or_lt_of_le hw with rfl | hw'
    · simp [resize, PyArg.truthy, PyArg.gtZero, PyArg.leZero, PyArg.deriveDim]
    · have b1 : (w != 0) = true := by simp [bne_iff_ne]; omega
      simp [resize, PyArg.truthy, PyArg.gtZero, PyArg.leZero, PyArg.deriveDim, b1,
        decide_eq_false (show ¬ 0 < w by omega), decide_eq_true hw]
  · intro hh
    have hd : Int.tdiv (h * (imgWidth img : Int)) (imgHeight img : Int) ≤ 0 :=
      tdiv_nonpos_of_nonpos (by nlinarith [Int.natCast_nonneg (imgWidth img)]) (by omega)
    rcases eq_or_lt_of_le hh with rfl | hh'
    · simp [resize, PyArg.truthy, PyArg.gtZero, PyArg.leZero, PyArg.deriveDim,
        fracTrunc, cv2Resize, hHne, hWne]
      try omega
    · have b2 : (h != 0) = true := by simp [bne_iff_ne]; omega
      simp [resize, PyArg.truthy, PyArg.gtZero, PyArg.leZero, PyArg.deriveDim, b2,
        decide_eq_false (show ¬ 0 < h by omega), decide_eq_true hh,
        fracTrunc, cv2Resize, hHne, hWne]
      try omega
  · intro hw hh hnot
    have hd : Int.tdiv (h * (imgWidth img : Int)) (imgHeight img : Int) ≤ 0 :=
      tdiv_nonpos_of_nonpos (by nlinarith [Int.natCast_nonneg (imgWidth img)]) (by omega)
    rcases eq_or_lt_of_le hw with rfl | hw'
    · -- w = 0
      rcases eq_or_lt_of_le hh with rfl | hh'
      · simp [resize, PyArg.truthy, PyArg.gtZero, PyArg.leZero, PyArg.deriveDim,
          fracTrunc, cv2Resize, hHne, hWne]
      · have b2 : (h != 0) = true := by simp [bne_iff_ne]; omega
        simp [resize, PyArg.truthy, PyArg.gtZero, PyArg.leZero, PyArg.deriveDim, b2,
          decide_eq_false (show ¬ 0 < h by omega), decide_eq_true hh,
          fracTrunc, cv2Resize, hHne, hWne]
        exact fun h1 => absurd h1 (not_lt.mpr hd)
    · -- w < 0, so h = 0
      have hh0 : h = 0 := by omega
      subst hh0
      have b1 : (w != 0) = true := by simp [bne_iff_ne]; omega
      simp [resize, PyArg.truthy, PyArg.gtZero, PyArg.leZero, PyArg.deriveDim, b1,
        decide_eq_false (show ¬ 0 < w by omega), decide_eq_true hw,
        fracTrunc, cv2Resize, hHne, hWne]

/-- Witness for C4 (amended) at the 2×2 buffer `img22` with
`width = 2`, `height = 1`. -/
theorem resize_amended_witness :
    (0 < imgHeight img22 ∧ 0 < imgWidth img22) ∧
      resize img22 (.int 2) (.int 1) Option.none = .ok (zeroCanvas (2, 1)) :=
  ⟨⟨by decide, by decide⟩,
    (resize_amended img22 Option.none 2 1 (by decide) (by decide)).2.1
      (by decide) (by decide)⟩

/-- A resolved Python slice endpoint never exceeds the length. -/
theorem sliceIdx_le (n : Nat) (i : Int) : sliceIdx n i ≤ n := by
  unfold sliceIdx; split <;> omega

/-- Within `[0, n]` a slice endpoint resolves to itself. -/
theorem sliceIdx_of_bounds (n : Nat) (i : Int) (h0 : 0 ≤ i) (h1 : i ≤ n) :
    sliceIdx n i = i.toNat := by
  unfold sliceIdx; split <;> omega

/-- Length of a Python slice. -/
theorem listSlice_length (l : List α) (i j : Int) :
    (listSlice l i j).length = sliceIdx l.length j - sliceIdx l.length i := by
  have h1 := sliceIdx_le l.length i
  have h2 := sliceIdx_le l.length j
  simp [listSlice]
  omega

/-- Slicing keeps only elements of the original list. -/
theorem mem_of_mem_listSlice {l : List α} {a : α} {i j : Int}
    (h : a ∈ listSlice l i j) : a ∈ l := by
  unfold listSlice at h
  exact List.mem_of_mem_drop (List.mem_of_mem_take h)

/-- Banker's-rounded half of a nonnegative integer stays in `[0, n]`. -/
theorem halfRoundEven_bounds (n : Int) (h : 0 ≤ n) :
    0 ≤ halfRoundEven n ∧ halfRoundEven n ≤ n := by
  unfold halfRoundEven; split <;> (try split) <;> omega

/-- Claim C6 amended: `crop_center` raises the size-validation error iff
either requested crop dimension is ≥ the corresponding source dimension;
otherwise (for positive requested dimensions, on a rectangular buffer)
it returns a centred crop whose width is exactly the requested width but
whose height is `min(requested height, source width)` — the requested
size is obtained exactly only when the requested height also fits under
the source *width*, because `crop` clamps the height bound against the
width limit. -/
theorem crop_center_amended (img : Image) (wc hc : Int)
    (hrect : imgRect img) (hwc : 0 < wc) (hhc : 0 < hc) :
    ((crop_center img (wc, hc) = .error .valueError) ↔
      ((imgWidth img : Int) ≤ wc ∨ (imgHeight img : Int) ≤ hc))
    ∧ (wc < (imgWidth img : Int) → hc < (imgHeight img : Int) →
        imgHeight ((crop_center img (wc, hc)).toOption.getD []) =
            (min hc (imgWidth img : Int)).toNat
          ∧ ∀ r ∈ (crop_center img (wc, hc)).toOption.getD [], r.length = wc.toNat) := by
  have e1 : img.length = imgHeight img := rfl
  constructor
  · by_cases hcond : (wc ≥ (imgWidth img : Int) ∨ hc ≥ (imgHeight img : Int))
    · have : crop_center img (wc, hc) = .error .valueError := by
        simp only [crop_center]
        rw [if_pos hcond]
      simp [this]
      omega
    · have : crop_center img (wc, hc) =
          .ok (crop img (halfRoundEven ((imgWidth img : Int) - wc),
            halfRoundEven ((imgHeight img : Int) - hc), wc, hc)) := by
        simp only [crop_center]
        rw [if_neg hcond]
      simp [this]
      omega
  · intro hw hh
    have hcond : ¬(wc ≥ (imgWidth img : Int) ∨ hc ≥ (imgHeight img : Int)) := by omega
    have hx := halfRoundEven_bounds ((imgWidth img : Int) - wc) (by omega)
    have hy := halfRoundEven_bounds ((imgHeight img : Int) - hc) (by omega)
    set x := halfRoundEven ((imgWidth img : Int) - wc) with hxdef
    set y := halfRoundEven ((imgHeight img : Int) - hc) with hydef
    obtain ⟨hx0, hx1⟩ := hx
    obtain ⟨hy0, hy1⟩ := hy
    have hbox : boxAny (x, y, wc, hc) = true := by
      simp [boxAny, bne_iff_ne]
      omega
    have hres : crop_center img (wc, hc) = .ok (crop img (x, y, wc, hc)) := by
      simp only [crop_center]
      rw [if_neg hcond]
    have hcrop : crop img (x, y, wc, hc) =
        npSlice img (max y 0) (max y 0 + min hc (imgWidth img : Int))
          (max x 0) (max x 0 + min wc (imgWidth img : Int)) := by
      unfold crop
      rw [if_neg (by simp [hbox])]
    have hmaxx : max x 0 = x := by omega
    have hmaxy : max y 0 = y := by omega
    have hminw : min wc (imgWidth img : Int) = wc := by omega
    have hminh0 : 0 ≤ min hc (imgWidth img : Int) := by omega
    have hminh1 : min hc (imgWidth img : Int) ≤ hc := by omega
    rw [hres]
    simp only [Except.toOption, Option.getD]
    rw [hcrop, hmaxx, hmaxy, hminw]
    constructor
    · have h2 : imgHeight (npSlice img y (y + min hc (imgWidth img : Int))
          x (x + wc)) = (listSlice img y (y + min hc (imgWidth img : Int))).length := by
        simp [npSlice, imgHeight]
      rw [h2, listSlice_length,
          sliceIdx_of_bounds _ _ (by omega) (by omega),
          sliceIdx_of_bounds _ _ (by omega) (by omega)]
      omega
    · intro r hr
      unfold npSlice at hr
      rcases List.mem_map.mp hr with ⟨row, hrow, rfl⟩
      have hrowmem : row ∈ img := mem_of_mem_listSlice hrow
      have hrowlen : row.length = imgWidth img := hrect row hrowmem
      rw [listSlice_length, hrowlen,
          sliceIdx_of_bounds _ _ (by omega) (by omega),
          sliceIdx_of_bounds _ _ (by omega) (by omega)]
      omega

/-- Counterexample to claim C6 as stated: on a 5×3 buffer,
`crop_center(buf, (2, 4))` passes validation (2 < 3, 4 < 5) yet returns
a buffer of height 3 — `min(4, width 3)` — not the requested 4. -/
theorem crop_center_height_mismatch :
    (crop_center img53 (2, 4)).toOption.map imgHeight = some 3 ∧
      (crop_center img53 (2, 4)).toOption.map imgHeight ≠ some 4 := by decide

/-- Witness for C6 (amended) at the 4×3 buffer `img43` with requested
crop size `(2, 3)`: the returned height is `min(3, width 3) = 3`. -/
theorem crop_center_amended_witness :
    (imgRect img43 ∧ (0:Int) < 2 ∧ (0:Int) < 3) ∧
      imgHeight ((crop_center img43 (2, 3)).toOption.getD []) =
        (min 3 (imgWidth img43 : Int)).toNat :=
  ⟨⟨by unfold imgRect; decide, by decide, by decide⟩,
    ((crop_center_amended img43 2 3 (by unfold imgRect; decide)
        (by decide) (by decide)).2
      (by decide) (by decide)).1⟩

/-- An abstract byte string: file contents are either pre-existing
opaque bytes, the empty content of a freshly-truncated file, or the
output of `imencode` (the entropy-coded bytes themselves are outside
the embedding). -/
inductive Bytes where
  | raw (id : Nat)
  | empty
  | encoded (e : EncodeResult)
deriving DecidableEq

/-- A filesystem: an association of paths to file contents. -/
abbrev FS := List (String × Bytes)

/-- Python `os.path.isfile(p)`. -/
def isFile (fs : FS) (p : String) : Bool := (fs.lookup p).isSome

/-- Creating, truncating or rewriting a file. -/
def setFile (fs : FS) (p : String) (d : Bytes) : FS :=
  (p, d) :: fs.filter (fun e => e.1 != p)

/-- Python `s.split(sep)` for a one-character separator, over the
character list of a string (never returns an empty list). -/
def splitOnChar (c : Char) : List Char → List (List Char)
  | [] => [[]]
  | x :: xs =>
    let r := splitOnChar c xs
    if x = c then [] :: r
    else (x :: r.headD []) :: r.tail

/-- The extension-adjusted path `imwrite` actually targets: the source
derives `ext` from the encode format, compares it against
`img_path.split(".")[-1]` and appends `.ext` on mismatch. -/
def imwritePath (path : String) (encodeType : String) : String :=
  let ext := if encodeType = ENCODE_PNG then "png" else "jpg"
  if ((splitOnChar '.' path.data).getLastD []).asString ≠ ext then
    path ++ "." ++ ext
  else path

/-- `imwrite(img, img_path, ...)` from `image.py` lines 129-174, for the
path-string branch (the open-stream branch takes no part in the claims).
Returns the outcome together with the resulting filesystem.  The
existence check runs before `open(img_path, 'wb')`, so the error path
returns the filesystem untouched; the success path first truncates the
file (the `open`), then writes the encoded buffer. -/
def imwrite (fs : FS) (img : Image) (path : String) (encodeType : String)
    (quality pixelFormat : Int) (overWrite : Bool) : Except PyErr Unit × FS :=
  let p := imwritePath path encodeType
  if isFile fs p = true ∧ overWrite = false then (.error .fileExists, fs)
  else
    let fs1 := setFile fs p .empty
    let buffer := imencode img encodeType quality pixelFormat
    (.ok (), setFile fs1 p (.encoded buffer))

/-- Claim C5: for every filesystem, buffer and path whose
extension-adjusted target exists, `imwrite` with `over_write = False`
raises the already-exists error before any write occurs: the returned
filesystem is exactly the input one, so the existing file's bytes are
unmodified and no partial write happens. -/
theorem imwrite_exists_no_overwrite (fs : FS) (img : Image)
    (path encodeType : String) (quality pixelFormat : Int)
    (hex : isFile fs (imwritePath path encodeType) = true) :
    imwrite fs img path encodeType quality pixelFormat false =
      (.error .fileExists, fs) := by
  simp [imwrite, hex]

/-- Witness for C5: a filesystem holding `a.jpg`, written to with the
JPEG format (so the adjusted path is again `a.jpg`) and no overwrite. -/
theorem imwrite_exists_no_overwrite_witness :
    isFile [("a.jpg", Bytes.raw 0)] (imwritePath "a.jpg" ENCODE_JPEG) = true ∧
      imwrite [("a.jpg", Bytes.raw 0)] img22 "a.jpg" ENCODE_JPEG 95 0 false =
        (.error .fileExists, [("a.jpg", Bytes.raw 0)]) :=
  ⟨by decide,
    imwrite_exists_no_overwrite [("a.jpg", Bytes.raw 0)] img22 "a.jpg"
      ENCODE_JPEG 95 0 (by decide)⟩

/-- On negative input both toward-zero and floor division by 10 land at
or below zero, so after clamping into `[0, 9]` the PNG compression
level agrees whether Python's `int()` truncation or a mathematical
floor is used. -/
theorem clamp_tdiv_eq_clamp_fdiv (q : Int) :
    max 0 (min (Int.tdiv q 10 - 1) 9) = max 0 (min (Int.fdiv q 10 - 1) 9) := by
  rcases le_or_lt 0 q with h | h
  · rw [Int.fdiv_eq_tdiv h (by norm_num)]
  · have h1 : Int.tdiv q 10 ≤ 0 := tdiv_nonpos_of_nonpos (le_of_lt h) (by norm_num)
    have h2 : Int.fdiv q 10 ≤ 0 := by
      rw [Int.fdiv_eq_ediv _ (by norm_num)]
      omega
    omega

/-- Claim C7: `imencode` passes the JPEG marker to the JPEG backend with
`quality` and `pixel_format` unchanged; every other format value takes
the PNG path, whose compression level is
`clamp(floor(quality/10) - 1, 0, 9)` — for every integer quality the
code's toward-zero `int(quality/10)` agrees with the floor form after
clamping. -/
theorem imencode_paths (img : Image) (et : String) (q pf : Int)
    (het : et ≠ ENCODE_JPEG) :
    imencode img ENCODE_JPEG q pf = .jpeg img q pf
    ∧ imencode img et q pf = .png img (max 0 (min (Int.fdiv q 10 - 1) 9)) := by
  refine ⟨by simp [imencode], ?_⟩
  simp [imencode, het, clamp_tdiv_eq_clamp_fdiv]

/-- Witness for C7 with the PNG marker and quality 95. -/
theorem imencode_paths_witness :
    ENCODE_PNG ≠ ENCODE_JPEG ∧
      imencode img22 ENCODE_PNG 95 0 =
        .png img22 (max 0 (min (Int.fdiv 95 10 - 1) 9)) :=
  ⟨by decide, (imencode_paths img22 ENCODE_PNG 95 0 (by decide)).2⟩

/-- A color argument as `draw_text`/`draw_square` accept it: an integer
3-tuple or a hex string. -/
inductive ColorArg where
  | tup (c : Px)
  | hexStr (s : String)
deriving DecidableEq

/-- Value of one hexadecimal digit character (0 for anything else). -/
def hexVal (c : Char) : Int :=
  if '0' ≤ c ∧ c ≤ '9' then (c.toNat : Int) - ('0'.toNat : Int)
  else if 'a' ≤ c ∧ c ≤ 'f' then (c.toNat : Int) - ('a'.toNat : Int) + 10
  else if 'A' ≤ c ∧ c ≤ 'F' then (c.toNat : Int) - ('A'.toNat : Int) + 10
  else 0

/-- Modelled from the spec: `hex2rgb` lives in `dpsutil.media.tool`,
which is not under `src/`; per spec §3/§6 it parses a `#RRGGBB`-style
hex string into an RGB integer 3-tuple. -/
def hex2rgb (s : String) : Px :=
  let ds := (if s.data.headD ' ' = '#' then s.data.tail else s.data).map hexVal
  (16 * ds.getD 0 0 + ds.getD 1 0,
   16 * ds.getD 2 0 + ds.getD 3 0,
   16 * ds.getD 4 0 + ds.getD 5 0)

/-- Modelled from the spec: `color_rgb2bgr` lives in
`dpsutil.media.tool`, not under `src/`; per spec §4.3 it swaps the
channel order to the backend's expected BGR. -/
def color_rgb2bgr (c : Px) : Px := (c.2.2, c.2.1, c.1)

/-- The vision backend's `FONT_HERSHEY_DUPLEX` font id. -/
def FONT_HERSHEY_DUPLEX : Int := 2

/-- One backend `cv2.putText` invocation as recorded by the embedding
of `draw_text` (the glyph rasterization itself happens in the backend,
so `draw_text`'s observable behaviour is the sequence of calls it
issues). -/
structure TextCall where
  text : List Char
  pos : Int × Int
  fontFace : Int
  fontScale : Int
  color : Px
  thickness : Int
  lineAA : Bool
deriving DecidableEq

/-- `draw_text(img, label, position, color, scale_factor, thickness,
font, wrap_text)` from `image.py` lines 343-376, embedded as the list of
`cv2.putText` calls it issues.  `cv2.getTextSize` is an opaque backend
measurement, passed in as a function.  The wrap branch splits the label
on newlines, centres each line and passes `font` with anti-aliasing;
the non-wrap branch issues a single call at the literal position and
passes the hardcoded `cv2.FONT_HERSHEY_DUPLEX` instead of `font`, with
the default line type. -/
def draw_text (img : Image) (label : String) (position : Int × Int)
    (color : ColorArg) (scaleFactor thickness font : Int) (wrapText : Bool)
    (getTextSize : List Char → Int → Int → Int → Int × Int) : List TextCall :=
  let c := match color with
    | .tup c => c
    | .hexStr s => color_rgb2bgr (hex2rgb s)
  if wrapText then
    (splitOnChar '\n' label.data).enum.map (fun p =>
      let ts := getTextSize p.2 font scaleFactor thickness
      let gap := ts.2 + 10
      let y := Int.tdiv ((imgHeight img : Int) + ts.2) 2 + (p.1 : Int) * gap
      let x := Int.tdiv ((imgWidth img : Int) - ts.1) 2
      ⟨p.2, (x, y), font, scaleFactor, c, thickness, true⟩)
  else
    [⟨label.data, position, FONT_HERSHEY_DUPLEX, scaleFactor, c, thickness, false⟩]

/-- Claim C9: with `wrap_text = False` the behaviour of `draw_text` is
independent of its `font` argument — for every buffer, text, position,
color, scale, thickness and backend text-measuring function, two calls
differing only in `font` issue identical backend calls, because the
non-wrapping path hardcodes `cv2.FONT_HERSHEY_DUPLEX`. -/
theorem draw_text_nowrap_font_independent (img : Image) (label : String)
    (position : Int × Int) (color : ColorArg) (scaleFactor thickness f1 f2 : Int)
    (gts : List Char → Int → Int → Int → Int × Int) :
    draw_text img label position color scaleFactor thickness f1 false gts =
      draw_text img label position color scaleFactor thickness f2 false gts := rfl

/-- The Python values `imread` may receive: a path string, an open
`io.BufferedReader`, an in-memory `io.BytesIO` stream, or something
else entirely. -/
inductive ReadInput where
  | str (path : String)
  | bufferedReader (contents : Bytes)
  | bytesIo (contents : Bytes)
  | other
deriving DecidableEq

/-- Python `isinstance(x, (str, io.BufferedReader))`: `io.BytesIO` is
not a subclass of `io.BufferedReader` (both derive from
`io.BufferedIOBase`), so it fails the check even though it is an open
readable binary stream. -/
def isStrOrBufferedReader : ReadInput → Bool
  | .str _ => true
  | .bufferedReader _ => true
  | _ => false

/-- The `imdecode(buffer, pixel_format)` delegation at the end of
`imread`, abstracted by its arguments (format sniffing and backend
decoding take no part in the claims). -/
structure Decoded where
  buffer : Bytes
  pixelFormat : Int
deriving DecidableEq

/-- `imread(img_path, pixel_format)` from `image.py` lines 103-126: the
`assert isinstance(img_path, (str, io.BufferedReader))` gate; then a
path string is opened and read (a missing file fails at `open`), a
reader is read directly, and the whole content goes to `imdecode`. -/
def imread (fs : FS) (input : ReadInput) (pixelFormat : Int) :
    Except PyErr Decoded :=
  if isStrOrBufferedReader input = false then .error .assertionError
  else
    match input with
    | .str p =>
        match fs.lookup p with
        | some b => .ok ⟨b, pixelFormat⟩
        | none => .error .fileNotFound
    | .bufferedReader b => .ok ⟨b, pixelFormat⟩
    | _ => .error .assertionError

/-- Claim C10: `imread`'s type gate accepts exactly path strings and
`io.BufferedReader` instances — its assertion fails for every other
input; in particular an `io.BytesIO` in-memory stream is rejected, while
a `BufferedReader` with the same contents is read and decoded. -/
theorem imread_accepts_exactly (fs : FS) (input : ReadInput) (pf : Int)
    (b : Bytes) :
    (imread fs input pf = .error .assertionError ↔
      isStrOrBufferedReader input = false)
    ∧ imread fs (.bytesIo b) pf = .error .assertionError
    ∧ imread fs (.bufferedReader b) pf = .ok ⟨b, pf⟩ := by
  refine ⟨?_, rfl, rfl⟩
  cases input with
  | str p =>
      cases h : fs.lookup p <;> simp [imread, isStrOrBufferedReader, h]
  | bufferedReader b' => simp [imread, isStrOrBufferedReader]
  | bytesIo b' => simp [imread, isStrOrBufferedReader]
  | other => simp [imread, isStrOrBufferedReader]
